import Mathlib

/-!
Shallow embedding of the chat relay core (`src/chat.rs`, `src/chat/message.rs`,
`src/repository.rs`) and proofs of the claims of the specification about it.

Modelling conventions:
* `HashMap<K, V>` is modelled as an association list `List (K × V)` with
  `mapGet` / `mapInsert` / `mapErase`; iteration order of a `HashMap` is
  unspecified, so entry order inside the list carries no meaning.
* A `ws::Sender` capability is modelled by the id of the socket it reaches
  (field `sender` of `Client`); the actual transmission outcome is an oracle
  (`WsNet`), since the network is outside the program.
* The repository collaborator (`dyn Repository`) is an oracle structure
  `Repository` of response functions for the calls the core makes.
* Each event handler is a pure function from the oracles, the event and the
  registry state (`Server`) to the new state and a trace of `Effect`s.  The
  trace records, in program order: registry-lock acquire/release, collaborator
  calls, map mutations on the registry, socket sends/closes, sleeps and log
  lines, exactly where `chat.rs` performs them.
* `serde_json::to_string` of a struct whose fields are Rust `String`s cannot
  fail (the strings are valid UTF-8), so serialization is modelled as the
  total function `serializeFrontMsg`; the dead `Err` branches of the source
  are therefore absent.
* Rust `u32` connection ids are modelled as `Nat` (ids are assigned by an
  incrementing counter and never overflow in the scope of the model) and `i64`
  page parameters as `Int`.
-/

/-! ### Association-list model of `HashMap` -/

/-- First value stored under key `k` (model of `HashMap::get`). -/
def mapGet {α β : Type} [DecidableEq α] : List (α × β) → α → Option β
  | [], _ => none
  | (k, v) :: rest, k1 => if k = k1 then some v else mapGet rest k1

/-- Model of `HashMap::remove`: drop the entry stored under `k`. -/
def mapErase {α β : Type} [DecidableEq α] (l : List (α × β)) (k : α) :
    List (α × β) :=
  l.filter (fun p => decide (p.1 ≠ k))

/-- Model of `HashMap::insert`: bind `k` to `v`, replacing any previous
binding. -/
def mapInsert {α β : Type} [DecidableEq α] (l : List (α × β)) (k : α) (v : β) :
    List (α × β) :=
  (k, v) :: mapErase l k

@[simp] theorem mapGet_nil {α β : Type} [DecidableEq α] (k : α) :
    mapGet ([] : List (α × β)) k = none := rfl

@[simp] theorem mapGet_cons {α β : Type} [DecidableEq α]
    (k k1 : α) (v : β) (rest : List (α × β)) :
    mapGet ((k, v) :: rest) k1 = if k = k1 then some v else mapGet rest k1 := rfl

theorem mapGet_mapErase_self {α β : Type} [DecidableEq α]
    (l : List (α × β)) (k : α) : mapGet (mapErase l k) k = none := by
  induction l with
  | nil => rfl
  | cons p rest ih =>
      obtain ⟨k1, v⟩ := p
      by_cases h : k1 = k
      · simp only [mapErase, List.filter_cons] at ih ⊢
        simpa [h] using ih
      · simp only [mapErase, List.filter_cons] at ih ⊢
        simpa [h] using ih

theorem mapGet_mapErase_ne {α β : Type} [DecidableEq α]
    (l : List (α × β)) (k j : α) (h : j ≠ k) :
    mapGet (mapErase l k) j = mapGet l j := by
  induction l with
  | nil => rfl
  | cons p rest ih =>
      obtain ⟨k1, v⟩ := p
      by_cases h1 : k1 = k
      · simp only [mapErase, List.filter_cons] at ih ⊢
        simp [h1, Ne.symm h]
        simpa using ih
      · by_cases h2 : k1 = j
        · simp only [mapErase, List.filter_cons] at ih ⊢
          simp [h1, h2, h]
        · simp only [mapErase, List.filter_cons] at ih ⊢
          simp [h1, h2]
          simpa using ih

@[simp] theorem mapGet_mapInsert_self {α β : Type} [DecidableEq α]
    (l : List (α × β)) (k : α) (v : β) :
    mapGet (mapInsert l k v) k = some v := by
  simp [mapInsert]

theorem mapGet_mapInsert_ne {α β : Type} [DecidableEq α]
    (l : List (α × β)) (k j : α) (v : β) (h : j ≠ k) :
    mapGet (mapInsert l k v) j = mapGet l j := by
  simp [mapInsert, Ne.symm h]
  exact mapGet_mapErase_ne l k j h

theorem mapErase_mapErase {α β : Type} [DecidableEq α]
    (l : List (α × β)) (k : α) :
    mapErase (mapErase l k) k = mapErase l k := by
  simp [mapErase, List.filter_filter]

theorem mapGet_eq_none_all_ne {α β : Type} [DecidableEq α]
    (l : List (α × β)) (k : α) (h : mapGet l k = none) :
    ∀ p ∈ l, p.1 ≠ k := by
  induction l with
  | nil => intro p hp; cases hp
  | cons q rest ih =>
      obtain ⟨k1, v⟩ := q
      intro p hp
      by_cases h1 : k1 = k
      · simp [h1] at h
      · rcases List.mem_cons.mp hp with hp1 | hp1
        · subst hp1; exact h1
        · exact ih (by simpa [h1] using h) p hp1

theorem mapErase_of_not_mem {α β : Type} [DecidableEq α]
    (l : List (α × β)) (k : α) (h : mapGet l k = none) :
    mapErase l k = l := by
  have hall := mapGet_eq_none_all_ne l k h
  simp only [mapErase]
  exact List.filter_eq_self.mpr (fun p hp => by simpa using hall p hp)

/-! ### Data model (`src/chat/message.rs`, `src/repository.rs`) -/

/-- Model of `message::WsFrontMsg`: the outbound wire shape, fields in Rust
declaration order (`msg`, `user_name`). -/
structure WsFrontMsg where
  msg : String
  user_name : String
deriving DecidableEq, Repr

/-- Model of `message::Msg`: a decoded chat-message event. -/
structure Msg where
  msg : String
  connection_id : Nat
  room_name : String
deriving DecidableEq, Repr

/-- Model of `message::Login`: a decoded login-attempt event. -/
structure Login where
  room_name : String
  token : String
  connection_id : Nat
  name : String
deriving DecidableEq, Repr

/-- Model of `message::Terminate`: a decoded termination event. -/
structure Terminate where
  room_name : String
  connection_id : Nat
deriving DecidableEq, Repr

/-- Model of `repository::MessageData`: a persisted chat message. -/
structure MessageData where
  room_name : String
  user_name : String
  message : String
deriving DecidableEq, Repr

/-- Model of `repository::MsgParams`: paging parameters of a history fetch. -/
structure MsgParams where
  page : Int
  room_name : String
  size : Int
deriving DecidableEq, Repr

/-- Model of `repository::ErrorType`. -/
inductive ErrorType where
  | connection
  | config
  | unknownDBType
  | entryExists
  | inconsistentState
  | invalidParams
  | other
deriving DecidableEq, Repr

/-- Model of `repository::DBError`. -/
structure DBError where
  err_type : ErrorType
deriving DecidableEq, Repr

/-- The repository collaborator (`dyn Repository`), as an oracle giving the
response to each call the chat core makes.  `TokenData` references are passed
as their two string components. -/
structure Repository where
  token_get_valid : String → String → Except DBError Bool
  token_delete : String → String → Except DBError Unit
  message_insert : MessageData → Except DBError Unit
  message_get : MsgParams → Except DBError (List MessageData)

/-- Model of `ws::CloseCode` (the variants relevant to the core). -/
inductive CloseCode where
  | normal
  | away
  | protocol
  | status
  | abnormal
  | error
deriving DecidableEq, Repr

/-- The network layer as an oracle: the `Result` that `ws::Sender::send` and
`ws::Sender::close` return for a given socket and payload.  The core only
logs these results, it never branches on them otherwise. -/
structure WsNet where
  send_result : Nat → String → Except String Unit
  close_result : Nat → Except String Unit

/-! ### Registry state (`struct Server`, `struct Client` in `src/chat.rs`) -/

/-- Model of `chat::Client`: one accepted connection as stored in the registry. -/
structure Client where
  sender : Nat
  addr : String
  connection_id : Nat
  room_name : String
deriving DecidableEq, Repr

/-- Model of `chat::Server`: the room registry (room → members, id → display name,
pending pool). -/
structure Server where
  connections : List (String × List (Nat × Client))
  user_names : List (Nat × String)
  init_pool : List (Nat × Client)
deriving DecidableEq, Repr

/-- Model of `DEFAULT_PAGE_SIZE` in `src/chat.rs`. -/
def DEFAULT_PAGE_SIZE : Int := 30

/-- Model of `DEFAULT_PAGE_INDEX` in `src/chat.rs`. -/
def DEFAULT_PAGE_INDEX : Int := 0

/-! ### JSON serialization of the outbound frame -/

/-- JSON string escaping of one character, as `serde_json` performs it for
the characters that can occur here. -/
def jsonEscapeChar (c : Char) : String :=
  if c = '"' then "\\\""
  else if c = '\\' then "\\\\"
  else if c = '\n' then "\\n"
  else if c = '\r' then "\\r"
  else if c = '\t' then "\\t"
  else String.singleton c

/-- A JSON string literal. -/
def jsonString (s : String) : String :=
  "\"" ++ String.join (s.data.map jsonEscapeChar) ++ "\""

/-- Model of `serde_json::to_string(&WsFrontMsg)`: total, fields in declaration
order. -/
def serializeFrontMsg (m : WsFrontMsg) : String :=
  "\x7b\"msg\":" ++ jsonString m.msg ++ ",\"user_name\":" ++
    jsonString m.user_name ++ "\x7d"

/-! ### Effect traces -/

/-- One observable step of an event handler, in program order. -/
inductive Effect where
  /-- Model of `ws::Sender::send` on the socket `sender` with a text payload. -/
  | send (sender : Nat) (payload : String)
  /-- Model of `ws::Sender::close` on the socket `sender`. -/
  | close (sender : Nat) (code : CloseCode)
  /-- Model of `Message::insert` call on the message store. -/
  | messageInsert (m : MessageData)
  /-- Model of `Message::get` call on the message store. -/
  | messageGet (p : MsgParams)
  /-- Model of `Token::get_valid` call on the token store. -/
  | tokenGetValid (token room : String)
  /-- Model of `Token::delete` call on the token store. -/
  | tokenDelete (token room : String)
  /-- Acquiring the exclusive lock of the room registry. -/
  | serverLockAcquire
  /-- Releasing the exclusive lock of the room registry. -/
  | serverLockRelease
  /-- Model of `init_pool.remove` on the registry. -/
  | poolRemove (connectionId : Nat)
  /-- Model of `user_names.insert` on the registry. -/
  | nameInsert (connectionId : Nat) (name : String)
  /-- Insertion of a member into a room map of the registry. -/
  | memberInsert (room : String) (connectionId : Nat)
  /-- Removal of a member from a room map of the registry. -/
  | memberRemove (room : String) (connectionId : Nat)
  /-- Model of `thread::sleep` of the given number of milliseconds. -/
  | sleepMs (ms : Nat)
  /-- An `error!` log line (static text of the format string). -/
  | logError (s : String)
  /-- A `warn!` log line (static text of the format string). -/
  | logWarn (s : String)
deriving DecidableEq, Repr

/-- The socket sends of a trace, as (socket id, payload) in order. -/
def sendsOf : List Effect → List (Nat × String)
  | [] => []
  | Effect.send i p :: tr => (i, p) :: sendsOf tr
  | _ :: tr => sendsOf tr

/-- The socket closes of a trace, in order. -/
def closesOf : List Effect → List (Nat × CloseCode)
  | [] => []
  | Effect.close i c :: tr => (i, c) :: closesOf tr
  | _ :: tr => closesOf tr

/-- The message-store insert attempts of a trace, in order. -/
def messageInsertsOf : List Effect → List MessageData
  | [] => []
  | Effect.messageInsert m :: tr => m :: messageInsertsOf tr
  | _ :: tr => messageInsertsOf tr

/-- The history-fetch attempts of a trace, in order. -/
def messageGetsOf : List Effect → List MsgParams
  | [] => []
  | Effect.messageGet p :: tr => p :: messageGetsOf tr
  | _ :: tr => messageGetsOf tr

/-- The token deletion attempts of a trace, in order. -/
def tokenDeletesOf : List Effect → List (String × String)
  | [] => []
  | Effect.tokenDelete t r :: tr => (t, r) :: tokenDeletesOf tr
  | _ :: tr => tokenDeletesOf tr

/-- The effects of a trace that happen while the registry lock is held
(scanning left to right, starting from the given held/free flag). -/
def effectsWhileHeld : List Effect → Bool → List Effect
  | [], _ => []
  | Effect.serverLockAcquire :: rest, _ => effectsWhileHeld rest true
  | Effect.serverLockRelease :: rest, _ => effectsWhileHeld rest false
  | e :: rest, held =>
      (if held then [e] else []) ++ effectsWhileHeld rest held

/-! ### `Chat::broadcast` (src/chat.rs lines 253-285) -/

/-- The `for (id, s) in connections.iter()` loop of `Chat::broadcast`: send
the serialized payload to every member except the one whose id equals the
id of the sending connection; a send failure is logged and the loop continues. -/
def broadcastSends (net : WsNet) (connections : List (Nat × Client))
    (senderId : Nat) (ws_msg : String) : List Effect :=
  match connections with
  | [] => []
  | (id, s) :: rest =>
      if id = senderId then broadcastSends net rest senderId ws_msg
      else
        (Effect.send s.sender ws_msg ::
          (match net.send_result s.sender ws_msg with
           | Except.ok _ => []
           | Except.error _ =>
               [Effect.logError "error while inserting message to db"])) ++
          broadcastSends net rest senderId ws_msg

/-- Model of `Chat::broadcast`: look up the room; if present, serialize the
`{msg, user_name}` payload once and send it to every other member. -/
def Chat.broadcast (net : WsNet) (server : Server) (room_name : String)
    (user_name : String) (message : Msg) : List Effect :=
  match mapGet server.connections room_name with
  | some connections =>
      let front_msg : WsFrontMsg := { msg := message.msg, user_name := user_name }
      let ws_msg := serializeFrontMsg front_msg
      broadcastSends net connections message.connection_id ws_msg
  | none => []

/-! ### `Chat::handle_message` (src/chat.rs lines 287-329) -/

/-- Model of `Chat::handle_message`: under the registry lock, look up the sender
display name; if absent, log and drop.  Otherwise attempt the persistence
insert (failure only logged) and broadcast to the room. -/
def Chat.handle_message (net : WsNet) (repo : Repository) (msg : Msg)
    (server : Server) : Server × List Effect :=
  match mapGet server.user_names msg.connection_id with
  | some user_name =>
      let m_msg : MessageData :=
        { message := msg.msg, user_name := user_name, room_name := msg.room_name }
      let insertEffects :=
        Effect.messageInsert m_msg ::
          (match repo.message_insert m_msg with
           | Except.ok _ => []
           | Except.error _ =>
               [Effect.logError "error while inserting message to db"])
      (server,
        Effect.serverLockAcquire ::
          (insertEffects ++ Chat.broadcast net server msg.room_name user_name msg ++
            [Effect.serverLockRelease]))
  | none =>
      (server,
        [Effect.serverLockAcquire, Effect.logError "could not get name of user",
         Effect.serverLockRelease])

/-! ### `Chat::handle_login` (src/chat.rs lines 331-444) -/

/-- One iteration of the history-replay loop in `Chat::handle_login`:
serialize the historical message, send it to the logging-in connection
(failure only logged), then sleep 100 ms. -/
def replayOne (net : WsNet) (client : Client) (m : MessageData) :
    List Effect :=
  let front_msg : WsFrontMsg := { msg := m.message, user_name := m.user_name }
  let ws_msg := serializeFrontMsg front_msg
  (Effect.send client.sender ws_msg ::
    (match net.send_result client.sender ws_msg with
     | Except.ok _ => []
     | Except.error _ => [Effect.logError "sending to web socket error"])) ++
    [Effect.sleepMs 100]

/-- The `match messages` block of the valid-login branch: replay each
fetched historical message in order (a fetch error is only logged). -/
def Chat.replay_effects (net : WsNet) (client : Client)
    (fetched : Except DBError (List MessageData)) : List Effect :=
  match fetched with
  | Except.ok messages => (messages.map (replayOne net client)).flatten
  | Except.error _ => [Effect.logError "could not get messages from DB"]

/-- The `Ok(true)` branch of `Chat::handle_login`: take the connection out of
the pending pool (absence is logged and aborts the login), register the
display name, fetch one page of history, replay it, then insert the member
into its room (creating the room on first member). -/
def Chat.login_valid (net : WsNet) (repo : Repository) (login : Login)
    (server : Server) : Server × List Effect :=
  match mapGet server.init_pool login.connection_id with
  | some client0 =>
      let client : Client := { client0 with room_name := login.room_name }
      let server1 : Server :=
        { server with
            init_pool := mapErase server.init_pool login.connection_id,
            user_names := mapInsert server.user_names login.connection_id login.name }
      let params : MsgParams :=
        { page := DEFAULT_PAGE_INDEX, room_name := client.room_name,
          size := DEFAULT_PAGE_SIZE }
      let replayEffects := Chat.replay_effects net client (repo.message_get params)
      let roomAfter :=
        match mapGet server1.connections client.room_name with
        | some room => mapInsert room client.connection_id client
        | none => mapInsert ([] : List (Nat × Client)) client.connection_id client
      ({ server1 with
          connections := mapInsert server1.connections client.room_name roomAfter },
       Effect.poolRemove login.connection_id ::
         Effect.nameInsert login.connection_id login.name ::
         Effect.messageGet params ::
         (replayEffects ++
           [Effect.memberInsert client.room_name client.connection_id]))
  | none =>
      (server,
       [Effect.poolRemove login.connection_id,
        Effect.logError "could not get client from map"])

/-- The `Ok(false)` branch of `Chat::handle_login`: take the connection out
of the pending pool and close its socket with `CloseCode::Status`; never
touch rooms or display names. -/
def Chat.login_invalid (net : WsNet) (login : Login) (server : Server) :
    Server × List Effect :=
  match mapGet server.init_pool login.connection_id with
  | some client =>
      ({ server with init_pool := mapErase server.init_pool login.connection_id },
       Effect.poolRemove login.connection_id ::
         Effect.close client.sender CloseCode.status ::
         (match net.close_result client.sender with
          | Except.ok _ => []
          | Except.error _ => [Effect.logError "closing socket error"]))
  | none =>
      (server,
       [Effect.poolRemove login.connection_id,
        Effect.logError "could not get client from map"])

/-- The three-way `match` on `token_r.get_valid(..)` in `Chat::handle_login`:
valid, invalid, or a store error (which only logs and leaves the registry
untouched). -/
def Chat.login_outcome (net : WsNet) (repo : Repository) (login : Login)
    (server : Server) : Server × List Effect :=
  match repo.token_get_valid login.token login.room_name with
  | Except.ok true => Chat.login_valid net repo login server
  | Except.ok false => Chat.login_invalid net login server
  | Except.error _ => (server, [Effect.logError "login err"])

/-- The unconditional best-effort `token_r.delete(..)` at the end of
`Chat::handle_login`; a failure is only logged at warning level. -/
def Chat.token_delete_effects (repo : Repository) (login : Login) :
    List Effect :=
  Effect.tokenDelete login.token login.room_name ::
    (match repo.token_delete login.token login.room_name with
     | Except.ok _ => []
     | Except.error _ =>
         [Effect.logWarn "error while deleting token after login"])

/-- Model of `Chat::handle_login`: under the registry lock, validate the token,
branch on the three outcomes, and finally attempt the best-effort token
deletion; the registry lock is released at the end of the whole function. -/
def Chat.handle_login (net : WsNet) (repo : Repository) (login : Login)
    (server : Server) : Server × List Effect :=
  ((Chat.login_outcome net repo login server).1,
    Effect.serverLockAcquire ::
      Effect.tokenGetValid login.token login.room_name ::
      ((Chat.login_outcome net repo login server).2 ++
        Chat.token_delete_effects repo login ++ [Effect.serverLockRelease]))

/-! ### `Chat::handle_terminate` (src/chat.rs lines 446-472) -/

/-- Model of `Chat::handle_terminate`: under the registry lock, remove the connection
from its room membership map; a missing room or missing member is a logged
no-op.  Nothing else in the registry is touched. -/
def Chat.handle_terminate (terminate : Terminate) (server : Server) :
    Server × List Effect :=
  match mapGet server.connections terminate.room_name with
  | some room_connections =>
      match mapGet room_connections terminate.connection_id with
      | some _ =>
          ({ server with
              connections :=
                mapInsert server.connections terminate.room_name
                  (mapErase room_connections terminate.connection_id) },
           [Effect.serverLockAcquire,
            Effect.memberRemove terminate.room_name terminate.connection_id,
            Effect.serverLockRelease])
      | none =>
          (server,
           [Effect.serverLockAcquire,
            Effect.logWarn "could not get connections for room",
            Effect.serverLockRelease])
  | none =>
      (server,
       [Effect.serverLockAcquire,
        Effect.logWarn "could not get connections for room",
        Effect.serverLockRelease])

/-! ### Trace-extraction lemmas -/

@[simp] theorem sendsOf_append (a b : List Effect) :
    sendsOf (a ++ b) = sendsOf a ++ sendsOf b := by
  induction a with
  | nil => rfl
  | cons e tr ih => cases e <;> simp [sendsOf, ih]

@[simp] theorem closesOf_append (a b : List Effect) :
    closesOf (a ++ b) = closesOf a ++ closesOf b := by
  induction a with
  | nil => rfl
  | cons e tr ih => cases e <;> simp [closesOf, ih]

@[simp] theorem messageInsertsOf_append (a b : List Effect) :
    messageInsertsOf (a ++ b) = messageInsertsOf a ++ messageInsertsOf b := by
  induction a with
  | nil => rfl
  | cons e tr ih => cases e <;> simp [messageInsertsOf, ih]

@[simp] theorem messageGetsOf_append (a b : List Effect) :
    messageGetsOf (a ++ b) = messageGetsOf a ++ messageGetsOf b := by
  induction a with
  | nil => rfl
  | cons e tr ih => cases e <;> simp [messageGetsOf, ih]

@[simp] theorem tokenDeletesOf_append (a b : List Effect) :
    tokenDeletesOf (a ++ b) = tokenDeletesOf a ++ tokenDeletesOf b := by
  induction a with
  | nil => rfl
  | cons e tr ih => cases e <;> simp [tokenDeletesOf, ih]

/-- The membership list of room `r` in the registry (empty when the room has
no entry at all). -/
def roomMembers (server : Server) (r : String) : List (Nat × Client) :=
  (mapGet server.connections r).getD []

/-- The sends of the broadcast loop are exactly one serialized payload to
each member whose id differs from the id of the sending connection, in iteration
order, whatever the network oracle answers. -/
theorem sendsOf_broadcastSends (net : WsNet) (l : List (Nat × Client))
    (senderId : Nat) (m : String) :
    sendsOf (broadcastSends net l senderId m) =
      (l.filter (fun p => decide (p.1 ≠ senderId))).map
        (fun p => (p.2.sender, m)) := by
  induction l with
  | nil => rfl
  | cons p rest ih =>
      obtain ⟨id, c⟩ := p
      by_cases h : id = senderId
      · simp [broadcastSends, h, ih, List.filter_cons]
      · cases hn : net.send_result c.sender m <;>
          simp [broadcastSends, h, hn, ih, sendsOf, List.filter_cons]

theorem closesOf_broadcastSends (net : WsNet) (l : List (Nat × Client))
    (senderId : Nat) (m : String) :
    closesOf (broadcastSends net l senderId m) = [] := by
  induction l with
  | nil => rfl
  | cons p rest ih =>
      obtain ⟨id, c⟩ := p
      by_cases h : id = senderId
      · simp [broadcastSends, h, ih]
      · cases hn : net.send_result c.sender m <;>
          simp [broadcastSends, h, hn, ih, closesOf]

/-- Trace characterisation of `Chat::handle_message` sends for a logged-in
sender: the serialized payload goes to every member of the carried room
except the sender itself, and nowhere else. -/
theorem handle_message_sends (net : WsNet) (repo : Repository) (msg : Msg)
    (server : Server) (user_name : String)
    (h : mapGet server.user_names msg.connection_id = some user_name) :
    sendsOf (Chat.handle_message net repo msg server).2 =
      ((roomMembers server msg.room_name).filter
          (fun p => decide (p.1 ≠ msg.connection_id))).map
        (fun p => (p.2.sender,
          serializeFrontMsg { msg := msg.msg, user_name := user_name })) := by
  unfold Chat.handle_message
  simp only [h]
  cases hr : mapGet server.connections msg.room_name with
  | some conns =>
      cases hi : repo.message_insert
          { room_name := msg.room_name, user_name := user_name,
            message := msg.msg } <;>
        simp [Chat.broadcast, hr, hi, roomMembers, sendsOf,
          List.filterMap_cons, List.filterMap_append, sendsOf_broadcastSends]
  | none =>
      cases hi : repo.message_insert
          { room_name := msg.room_name, user_name := user_name,
            message := msg.msg } <;>
        simp [Chat.broadcast, hr, hi, roomMembers, sendsOf,
          List.filterMap_cons]

/-! ### Concrete fixtures used by witnesses and counterexamples -/

/-- A member of room "lobby". -/
def clientA : Client :=
  { sender := 1, addr := "addr-a", connection_id := 1, room_name := "lobby" }

/-- A second member of room "lobby". -/
def clientB : Client :=
  { sender := 2, addr := "addr-b", connection_id := 2, room_name := "lobby" }

/-- A third member of room "lobby". -/
def clientC : Client :=
  { sender := 3, addr := "addr-c", connection_id := 3, room_name := "lobby" }

/-- A member of room "den". -/
def clientD : Client :=
  { sender := 4, addr := "addr-d", connection_id := 4, room_name := "den" }

/-- A pending (not yet logged-in) connection. -/
def clientP : Client :=
  { sender := 9, addr := "addr-p", connection_id := 9,
    room_name := "Unassigned" }

/-- A registry with two populated rooms and one pending connection. -/
def server0 : Server :=
  { connections := [("lobby", [(1, clientA), (2, clientB), (3, clientC)]),
                    ("den", [(4, clientD)])],
    user_names := [(1, "alice"), (2, "bob"), (3, "carol"), (4, "dave")],
    init_pool := [(9, clientP)] }

/-- A registry whose only content is one pending connection. -/
def serverPend : Server :=
  { connections := [], user_names := [], init_pool := [(9, clientP)] }

/-- A network oracle on which every send and close succeeds. -/
def netOk : WsNet := ⟨fun _ _ => Except.ok (), fun _ => Except.ok ()⟩

/-- A network oracle on which every send and close fails. -/
def netDown : WsNet :=
  ⟨fun _ _ => Except.error "broken pipe", fun _ => Except.error "broken pipe"⟩

/-- Two messages of stored room history, most recent first. -/
def histMsgs : List MessageData :=
  [{ room_name := "lobby", user_name := "bob", message := "one" },
   { room_name := "lobby", user_name := "carol", message := "two" }]

/-- Token store answers "valid" for every token. -/
def tokTrue : String → String → Except DBError Bool := fun _ _ => Except.ok true

/-- Token store answers "invalid" for every token. -/
def tokFalse : String → String → Except DBError Bool :=
  fun _ _ => Except.ok false

/-- Token deletion succeeds. -/
def delOk : String → String → Except DBError Unit := fun _ _ => Except.ok ()

/-- Token deletion fails with a store error. -/
def delErr : String → String → Except DBError Unit :=
  fun _ _ => Except.error { err_type := ErrorType.other }

/-- Message persistence succeeds. -/
def insOk : MessageData → Except DBError Unit := fun _ => Except.ok ()

/-- Message persistence fails with a store error. -/
def insErr : MessageData → Except DBError Unit :=
  fun _ => Except.error { err_type := ErrorType.connection }

/-- History fetch returns `histMsgs`. -/
def getHist : MsgParams → Except DBError (List MessageData) :=
  fun _ => Except.ok histMsgs

/-- A repository on which every call succeeds and history is `histMsgs`. -/
def repoHist : Repository := ⟨tokTrue, delOk, insOk, getHist⟩

/-- A repository that rejects every token. -/
def repoReject : Repository := ⟨tokFalse, delOk, insOk, getHist⟩

/-- A login attempt of pending connection 9 into room "lobby". -/
def loginA : Login :=
  { room_name := "lobby", token := "t1", connection_id := 9, name := "alice" }

/-! ### C1 -/

/-- C1: a `ChatMessage` from a connection with a display-name entry is sent,
as the serialized payload, to exactly the connections present in the carried
membership map of the carried room other than the sender itself — so never to the sender
and never to a member of another room. -/
theorem chatMessage_fanout_exact (net : WsNet) (repo : Repository) (msg : Msg)
    (server : Server) (user_name : String)
    (h : mapGet server.user_names msg.connection_id = some user_name) :
    sendsOf (Chat.handle_message net repo msg server).2 =
      ((roomMembers server msg.room_name).filter
          (fun p => decide (p.1 ≠ msg.connection_id))).map
        (fun p => (p.2.sender,
          serializeFrontMsg { msg := msg.msg, user_name := user_name })) :=
  handle_message_sends net repo msg server user_name h

/-- Witness for C1 on a concrete registry: connection 1 ("alice") messages
"lobby"; the payload goes exactly to members 2 and 3. -/
theorem chatMessage_fanout_exact_witness :
    mapGet server0.user_names 1 = some "alice" ∧
    sendsOf (Chat.handle_message netOk repoHist
        { msg := "hi", connection_id := 1, room_name := "lobby" } server0).2 =
      ((roomMembers server0 "lobby").filter (fun p => decide (p.1 ≠ 1))).map
        (fun p => (p.2.sender,
          serializeFrontMsg { msg := "hi", user_name := "alice" })) :=
  ⟨rfl, chatMessage_fanout_exact netOk repoHist
    { msg := "hi", connection_id := 1, room_name := "lobby" } server0 "alice" rfl⟩

/-! ### C6 -/

/-- C6: a `ChatMessage` whose connection id has no display-name entry is
dropped — no persistence insert is attempted, nothing is sent, and the
registry is unchanged. -/
theorem chatMessage_without_login_dropped (net : WsNet) (repo : Repository)
    (msg : Msg) (server : Server)
    (h : mapGet server.user_names msg.connection_id = none) :
    (Chat.handle_message net repo msg server).1 = server ∧
    messageInsertsOf (Chat.handle_message net repo msg server).2 = [] ∧
    sendsOf (Chat.handle_message net repo msg server).2 = [] := by
  unfold Chat.handle_message
  simp [h, messageInsertsOf, sendsOf]

/-- Witness for C6: pending connection 9 (no display name) sends a message;
nothing is persisted or delivered. -/
theorem chatMessage_without_login_dropped_witness :
    mapGet serverPend.user_names 9 = none ∧
    (Chat.handle_message netOk repoHist
        { msg := "early", connection_id := 9, room_name := "lobby" }
        serverPend).1 = serverPend ∧
    messageInsertsOf (Chat.handle_message netOk repoHist
        { msg := "early", connection_id := 9, room_name := "lobby" }
        serverPend).2 = [] ∧
    sendsOf (Chat.handle_message netOk repoHist
        { msg := "early", connection_id := 9, room_name := "lobby" }
        serverPend).2 = [] :=
  ⟨rfl, chatMessage_without_login_dropped netOk repoHist
    { msg := "early", connection_id := 9, room_name := "lobby" } serverPend rfl⟩

/-! ### C10 -/

/-- C10: a `ChatMessage` from a logged-in connection whose carried room has
no entry in the room map is still persisted under that room name, while the
fan-out delivers nothing, no socket is closed and the registry is
unchanged. -/
theorem chatMessage_room_absent_persist_only (net : WsNet) (repo : Repository)
    (msg : Msg) (server : Server) (user_name : String)
    (h1 : mapGet server.user_names msg.connection_id = some user_name)
    (h2 : mapGet server.connections msg.room_name = none) :
    (Chat.handle_message net repo msg server).1 = server ∧
    messageInsertsOf (Chat.handle_message net repo msg server).2 =
      [{ room_name := msg.room_name, user_name := user_name,
         message := msg.msg }] ∧
    sendsOf (Chat.handle_message net repo msg server).2 = [] ∧
    closesOf (Chat.handle_message net repo msg server).2 = [] := by
  unfold Chat.handle_message
  simp only [h1]
  cases hi : repo.message_insert
      { room_name := msg.room_name, user_name := user_name,
        message := msg.msg } <;>
    simp [Chat.broadcast, h2, hi, messageInsertsOf, sendsOf, closesOf]

/-- Witness for C10: "alice" messages room "attic", which has no entry; the
message is persisted under "attic" and nobody receives anything. -/
theorem chatMessage_room_absent_persist_only_witness :
    mapGet server0.user_names 1 = some "alice" ∧
    mapGet server0.connections "attic" = none ∧
    (Chat.handle_message netOk repoHist
        { msg := "hello?", connection_id := 1, room_name := "attic" }
        server0).1 = server0 ∧
    messageInsertsOf (Chat.handle_message netOk repoHist
        { msg := "hello?", connection_id := 1, room_name := "attic" }
        server0).2 =
      [{ room_name := "attic", user_name := "alice", message := "hello?" }] ∧
    sendsOf (Chat.handle_message netOk repoHist
        { msg := "hello?", connection_id := 1, room_name := "attic" }
        server0).2 = [] ∧
    closesOf (Chat.handle_message netOk repoHist
        { msg := "hello?", connection_id := 1, room_name := "attic" }
        server0).2 = [] := by
  have h := chatMessage_room_absent_persist_only netOk repoHist
    { msg := "hello?", connection_id := 1, room_name := "attic" }
    server0 "alice" rfl rfl
  exact ⟨rfl, rfl, h.1, h.2.1, h.2.2.1, h.2.2.2⟩

/-! ### C7 -/

/-- C7: for a logged-in sender, the fan-out is the same whatever the
persistence insert returns and whatever each individual delivery returns —
a persistence failure does not block the broadcast, and one recipient
delivery failure does not stop delivery to the remaining recipients, which
always cover every other member of the room. -/
theorem chatMessage_failure_isolation (msg : Msg) (server : Server)
    (user_name : String) (net1 net2 : WsNet)
    (g : String → String → Except DBError Bool)
    (d : String → String → Except DBError Unit)
    (mi1 mi2 : MessageData → Except DBError Unit)
    (mg : MsgParams → Except DBError (List MessageData))
    (h : mapGet server.user_names msg.connection_id = some user_name) :
    sendsOf (Chat.handle_message net1 ⟨g, d, mi1, mg⟩ msg server).2 =
      ((roomMembers server msg.room_name).filter
          (fun p => decide (p.1 ≠ msg.connection_id))).map
        (fun p => (p.2.sender,
          serializeFrontMsg { msg := msg.msg, user_name := user_name })) ∧
    sendsOf (Chat.handle_message net1 ⟨g, d, mi1, mg⟩ msg server).2 =
      sendsOf (Chat.handle_message net2 ⟨g, d, mi2, mg⟩ msg server).2 := by
  refine ⟨handle_message_sends _ _ _ _ _ h, ?_⟩
  rw [handle_message_sends _ _ _ _ _ h, handle_message_sends _ _ _ _ _ h]

/-- Witness for C7: with a failing store insert and a network on which every
send fails, the attempted fan-out for the message from "alice" equals the one on a
fully healthy run. -/
theorem chatMessage_failure_isolation_witness :
    mapGet server0.user_names 1 = some "alice" ∧
    sendsOf (Chat.handle_message netDown ⟨tokTrue, delOk, insErr, getHist⟩
        { msg := "hi", connection_id := 1, room_name := "lobby" } server0).2 =
      ((roomMembers server0 "lobby").filter (fun p => decide (p.1 ≠ 1))).map
        (fun p => (p.2.sender,
          serializeFrontMsg { msg := "hi", user_name := "alice" })) ∧
    sendsOf (Chat.handle_message netDown ⟨tokTrue, delOk, insErr, getHist⟩
        { msg := "hi", connection_id := 1, room_name := "lobby" } server0).2 =
      sendsOf (Chat.handle_message netOk ⟨tokTrue, delOk, insOk, getHist⟩
        { msg := "hi", connection_id := 1, room_name := "lobby" } server0).2 := by
  have h := chatMessage_failure_isolation
    { msg := "hi", connection_id := 1, room_name := "lobby" } server0 "alice"
    netDown netOk tokTrue delOk insErr insOk getHist rfl
  exact ⟨rfl, h.1, h.2⟩

/-! ### Terminate handling: helper lemmas -/

theorem terminate_user_names_unchanged (t : Terminate) (s : Server) :
    (Chat.handle_terminate t s).1.user_names = s.user_names := by
  unfold Chat.handle_terminate
  cases hc : mapGet s.connections t.room_name with
  | none => rfl
  | some room => cases hm : mapGet room t.connection_id <;> simp [hm]

theorem terminate_init_pool_unchanged (t : Terminate) (s : Server) :
    (Chat.handle_terminate t s).1.init_pool = s.init_pool := by
  unfold Chat.handle_terminate
  cases hc : mapGet s.connections t.room_name with
  | none => rfl
  | some room => cases hm : mapGet room t.connection_id <;> simp [hm]

theorem terminate_member_removed (t : Terminate) (s : Server) :
    mapGet (roomMembers (Chat.handle_terminate t s).1 t.room_name)
      t.connection_id = none := by
  unfold Chat.handle_terminate
  cases hc : mapGet s.connections t.room_name with
  | none => simp [roomMembers, hc]
  | some room =>
      cases hm : mapGet room t.connection_id with
      | none => simp [roomMembers, hc, hm]
      | some c => simp [roomMembers, hm, mapGet_mapErase_self]

theorem terminate_other_rooms (t : Terminate) (s : Server) (r : String)
    (h : r ≠ t.room_name) :
    mapGet (Chat.handle_terminate t s).1.connections r =
      mapGet s.connections r := by
  unfold Chat.handle_terminate
  cases hc : mapGet s.connections t.room_name with
  | none => rfl
  | some room =>
      cases hm : mapGet room t.connection_id with
      | none => simp [hm]
      | some c =>
          simp only [hm]
          exact mapGet_mapInsert_ne _ _ _ _ h

theorem terminate_other_members (t : Terminate) (s : Server) (j : Nat)
    (h : j ≠ t.connection_id) :
    mapGet (roomMembers (Chat.handle_terminate t s).1 t.room_name) j =
      mapGet (roomMembers s t.room_name) j := by
  unfold Chat.handle_terminate
  cases hc : mapGet s.connections t.room_name with
  | none => rfl
  | some room =>
      cases hm : mapGet room t.connection_id with
      | none => simp [hm]
      | some c =>
          simp [roomMembers, hc, hm, mapGet_mapErase_ne _ _ _ h]

theorem terminate_noop_room_absent (t : Terminate) (s : Server)
    (h : mapGet s.connections t.room_name = none) :
    (Chat.handle_terminate t s).1 = s := by
  unfold Chat.handle_terminate
  simp [h]

theorem terminate_noop_member_absent (t : Terminate) (s : Server)
    (room : List (Nat × Client))
    (h1 : mapGet s.connections t.room_name = some room)
    (h2 : mapGet room t.connection_id = none) :
    (Chat.handle_terminate t s).1 = s := by
  unfold Chat.handle_terminate
  simp [h1, h2]

theorem terminate_idempotent (t : Terminate) (s : Server) :
    (Chat.handle_terminate t (Chat.handle_terminate t s).1).1 =
      (Chat.handle_terminate t s).1 := by
  cases hc : mapGet s.connections t.room_name with
  | none =>
      rw [terminate_noop_room_absent t s hc, terminate_noop_room_absent t s hc]
  | some room =>
      cases hm : mapGet room t.connection_id with
      | none =>
          rw [terminate_noop_member_absent t s room hc hm,
            terminate_noop_member_absent t s room hc hm]
      | some c =>
          refine terminate_noop_member_absent t _
            (mapErase room t.connection_id) ?_
            (mapGet_mapErase_self room t.connection_id)
          unfold Chat.handle_terminate
          simp [hc, hm]

/-! ### C3 -/

/-- A registry holding one logged-in member of "lobby" and one pending
connection, used to refute the full-cleanup claim for Terminate. -/
def termServer : Server :=
  { connections := [("lobby", [(1, clientA)])],
    user_names := [(1, "alice")],
    init_pool := [(9, clientP)] }

/-- Terminate event of the logged-in member of "lobby". -/
def termEvent : Terminate := { room_name := "lobby", connection_id := 1 }

/-- Terminate event of the pending connection (its room name is still the
initial "not initiated" placeholder of the handler). -/
def termPendEvent : Terminate :=
  { room_name := "not initiated", connection_id := 9 }

/-- C3 counterexample: after a Terminate for connection 1 its display-name
entry is still present, and after a Terminate for the pending connection 9
its pending-pool entry is still present — the handler never touches
`user_names` or `init_pool`. -/
theorem terminate_cleanup_counterexample :
    mapGet (Chat.handle_terminate termEvent termServer).1.user_names 1 =
      some "alice" ∧
    mapGet (Chat.handle_terminate termPendEvent termServer).1.init_pool 9 =
      some clientP := by
  constructor <;> rfl

/-- C3 (amended): processing a Terminate removes the entry of the connection from
its room membership map (when present), but removes nothing else: the
display-name registry and the pending pool are left exactly as they were, so
a connection that terminates before completing login stays in the pending
pool. -/
theorem terminate_membership_only (t : Terminate) (s : Server) :
    mapGet (roomMembers (Chat.handle_terminate t s).1 t.room_name)
      t.connection_id = none ∧
    (Chat.handle_terminate t s).1.user_names = s.user_names ∧
    (Chat.handle_terminate t s).1.init_pool = s.init_pool :=
  ⟨terminate_member_removed t s, terminate_user_names_unchanged t s,
   terminate_init_pool_unchanged t s⟩

/-! ### C8 -/

/-- C8: a Terminate for connection C in room R removes at most the entry of C
from the membership map of R — every other room and every other member of R read
back unchanged, display names and the pending pool are untouched; when R or
C is absent the registry is entirely unchanged, and processing the same
Terminate twice leaves the same state as processing it once. -/
theorem terminate_frame (t : Terminate) (s : Server) :
    (∀ r, r ≠ t.room_name →
      mapGet (Chat.handle_terminate t s).1.connections r =
        mapGet s.connections r) ∧
    (∀ j, j ≠ t.connection_id →
      mapGet (roomMembers (Chat.handle_terminate t s).1 t.room_name) j =
        mapGet (roomMembers s t.room_name) j) ∧
    (Chat.handle_terminate t s).1.user_names = s.user_names ∧
    (Chat.handle_terminate t s).1.init_pool = s.init_pool ∧
    (mapGet s.connections t.room_name = none →
      (Chat.handle_terminate t s).1 = s) ∧
    (∀ room, mapGet s.connections t.room_name = some room →
      mapGet room t.connection_id = none → (Chat.handle_terminate t s).1 = s) ∧
    (Chat.handle_terminate t (Chat.handle_terminate t s).1).1 =
      (Chat.handle_terminate t s).1 :=
  ⟨fun r h => terminate_other_rooms t s r h,
   fun j h => terminate_other_members t s j h,
   terminate_user_names_unchanged t s,
   terminate_init_pool_unchanged t s,
   fun h => terminate_noop_room_absent t s h,
   fun room h1 h2 => terminate_noop_member_absent t s room h1 h2,
   terminate_idempotent t s⟩

/-- Witness for C8 on concrete data: terminating member 1 of "lobby" leaves
room "den" and the absence of member 2 alike unchanged, and a second identical
Terminate changes nothing further. -/
theorem terminate_frame_witness :
    mapGet (Chat.handle_terminate termEvent termServer).1.connections "den" =
      mapGet termServer.connections "den" ∧
    mapGet (roomMembers (Chat.handle_terminate termEvent termServer).1
        "lobby") 2 = mapGet (roomMembers termServer "lobby") 2 ∧
    (Chat.handle_terminate termEvent
        (Chat.handle_terminate termEvent termServer).1).1 =
      (Chat.handle_terminate termEvent termServer).1 := by
  obtain ⟨h1, h2, h3, h4, h5, h6, h7⟩ := terminate_frame termEvent termServer
  exact ⟨h1 "den" (by decide), h2 2 (by decide), h7⟩

/-! ### Login handling: helper lemmas -/

theorem sendsOf_replayOne (net : WsNet) (c : Client) (m : MessageData) :
    sendsOf (replayOne net c m) =
      [(c.sender,
        serializeFrontMsg { msg := m.message, user_name := m.user_name })] := by
  cases hn : net.send_result c.sender
      (serializeFrontMsg { msg := m.message, user_name := m.user_name }) <;>
    simp [replayOne, hn, sendsOf]

theorem sendsOf_replayFlatten (net : WsNet) (c : Client)
    (msgs : List MessageData) :
    sendsOf ((msgs.map (replayOne net c)).flatten) =
      msgs.map (fun m => (c.sender,
        serializeFrontMsg { msg := m.message, user_name := m.user_name })) := by
  induction msgs with
  | nil => rfl
  | cons m rest ih => simp [sendsOf_replayOne, ih]

theorem replay_calls_empty (net : WsNet) (c : Client)
    (msgs : List MessageData) :
    messageGetsOf ((msgs.map (replayOne net c)).flatten) = [] ∧
    messageInsertsOf ((msgs.map (replayOne net c)).flatten) = [] ∧
    tokenDeletesOf ((msgs.map (replayOne net c)).flatten) = [] ∧
    closesOf ((msgs.map (replayOne net c)).flatten) = [] := by
  induction msgs with
  | nil => exact ⟨rfl, rfl, rfl, rfl⟩
  | cons m rest ih =>
      cases hn : net.send_result c.sender
          (serializeFrontMsg { msg := m.message, user_name := m.user_name }) <;>
        simp [replayOne, hn, messageGetsOf, messageInsertsOf, tokenDeletesOf,
          closesOf, ih.1, ih.2.1, ih.2.2.1, ih.2.2.2]

theorem token_delete_effects_spec (repo : Repository) (login : Login) :
    tokenDeletesOf (Chat.token_delete_effects repo login) =
      [(login.token, login.room_name)] ∧
    sendsOf (Chat.token_delete_effects repo login) = [] ∧
    closesOf (Chat.token_delete_effects repo login) = [] ∧
    messageGetsOf (Chat.token_delete_effects repo login) = [] ∧
    messageInsertsOf (Chat.token_delete_effects repo login) = [] := by
  cases hd : repo.token_delete login.token login.room_name <;>
    simp [Chat.token_delete_effects, hd, tokenDeletesOf, sendsOf, closesOf,
      messageGetsOf, messageInsertsOf]

/-- Full characterisation of the valid-token login branch when the
connection is pending and the history fetch succeeds. -/
theorem login_valid_eq (net : WsNet) (repo : Repository) (login : Login)
    (server : Server) (client0 : Client) (msgs : List MessageData)
    (hp : mapGet server.init_pool login.connection_id = some client0)
    (hm : repo.message_get
        { page := DEFAULT_PAGE_INDEX, room_name := login.room_name,
          size := DEFAULT_PAGE_SIZE } =
      Except.ok msgs) :
    Chat.login_valid net repo login server =
      ({ connections := mapInsert server.connections login.room_name
            (mapInsert (roomMembers server login.room_name)
              client0.connection_id
              { client0 with room_name := login.room_name }),
         user_names := mapInsert server.user_names login.connection_id
            login.name,
         init_pool := mapErase server.init_pool login.connection_id },
       Effect.poolRemove login.connection_id ::
         Effect.nameInsert login.connection_id login.name ::
         Effect.messageGet
           { page := DEFAULT_PAGE_INDEX, room_name := login.room_name,
             size := DEFAULT_PAGE_SIZE } ::
         ((msgs.map (replayOne net
             { client0 with room_name := login.room_name })).flatten ++
           [Effect.memberInsert login.room_name client0.connection_id])) := by
  unfold Chat.login_valid
  simp only [hp]
  cases hr : mapGet server.connections login.room_name <;>
    simp [hm, hr, roomMembers, Chat.replay_effects]

/-! ### C2 -/

/-- C2: on a valid-token login of a pending connection, the connection
leaves the pending pool, its display name is registered, exactly one
history page of the fixed size is fetched, each historical message is sent
individually to that connection in the order the store returned, and only
after all of them is the connection inserted into the (possibly freshly
created) room membership map. -/
theorem login_valid_replay_then_join (net : WsNet) (repo : Repository)
    (login : Login) (server : Server) (client0 : Client)
    (msgs : List MessageData)
    (hv : repo.token_get_valid login.token login.room_name = Except.ok true)
    (hp : mapGet server.init_pool login.connection_id = some client0)
    (hid : client0.connection_id = login.connection_id)
    (hm : repo.message_get
        { page := DEFAULT_PAGE_INDEX, room_name := login.room_name,
          size := DEFAULT_PAGE_SIZE } =
      Except.ok msgs) :
    mapGet (Chat.handle_login net repo login server).1.init_pool
      login.connection_id = none ∧
    mapGet (Chat.handle_login net repo login server).1.user_names
      login.connection_id = some login.name ∧
    messageGetsOf (Chat.handle_login net repo login server).2 =
      [{ page := DEFAULT_PAGE_INDEX, room_name := login.room_name,
         size := DEFAULT_PAGE_SIZE }] ∧
    mapGet (roomMembers (Chat.handle_login net repo login server).1
        login.room_name) login.connection_id =
      some { client0 with room_name := login.room_name } ∧
    (∃ pre post,
      (Chat.handle_login net repo login server).2 =
        pre ++ Effect.memberInsert login.room_name login.connection_id ::
          post ∧
      sendsOf pre = msgs.map (fun m => (client0.sender,
        serializeFrontMsg { msg := m.message, user_name := m.user_name })) ∧
      sendsOf post = []) := by
  have heq : Chat.login_outcome net repo login server =
      Chat.login_valid net repo login server := by
    unfold Chat.login_outcome
    rw [hv]
  have hv2 := login_valid_eq net repo login server client0 msgs hp hm
  unfold Chat.handle_login
  rw [heq, hv2, hid]
  refine ⟨mapGet_mapErase_self _ _, mapGet_mapInsert_self _ _ _, ?_, ?_, ?_⟩
  · cases hd : repo.token_delete login.token login.room_name <;>
      simp [Chat.token_delete_effects, hd, messageGetsOf,
        (replay_calls_empty net _ msgs).1]
  · simp [roomMembers]
  · refine ⟨Effect.serverLockAcquire ::
      Effect.tokenGetValid login.token login.room_name ::
      Effect.poolRemove login.connection_id ::
      Effect.nameInsert login.connection_id login.name ::
      Effect.messageGet
        { page := DEFAULT_PAGE_INDEX, room_name := login.room_name,
          size := DEFAULT_PAGE_SIZE } ::
      (msgs.map (replayOne net
        { client0 with room_name := login.room_name })).flatten,
      Chat.token_delete_effects repo login ++ [Effect.serverLockRelease],
      ?_, ?_, ?_⟩
    · simp [hid]
    · simp [sendsOf, sendsOf_replayFlatten]
    · cases hd : repo.token_delete login.token login.room_name <;>
        simp [Chat.token_delete_effects, hd, sendsOf]

/-- Witness for C2: pending connection 9 logs in to "lobby" with a valid
token; both stored history messages are replayed in order before the
membership insertion. -/
theorem login_valid_replay_then_join_witness :
    repoHist.token_get_valid "t1" "lobby" = Except.ok true ∧
    mapGet serverPend.init_pool 9 = some clientP ∧
    clientP.connection_id = 9 ∧
    (mapGet (Chat.handle_login netOk repoHist loginA serverPend).1.init_pool
        9 = none ∧
     mapGet (Chat.handle_login netOk repoHist loginA serverPend).1.user_names
        9 = some "alice" ∧
     messageGetsOf (Chat.handle_login netOk repoHist loginA serverPend).2 =
       [{ page := DEFAULT_PAGE_INDEX, room_name := "lobby",
          size := DEFAULT_PAGE_SIZE }] ∧
     mapGet (roomMembers (Chat.handle_login netOk repoHist loginA
         serverPend).1 "lobby") 9 =
       some { clientP with room_name := "lobby" } ∧
     (∃ pre post,
       (Chat.handle_login netOk repoHist loginA serverPend).2 =
         pre ++ Effect.memberInsert "lobby" 9 :: post ∧
       sendsOf pre = histMsgs.map (fun m => (clientP.sender,
         serializeFrontMsg { msg := m.message, user_name := m.user_name })) ∧
       sendsOf post = [])) :=
  ⟨rfl, rfl, rfl, login_valid_replay_then_join netOk repoHist loginA
    serverPend clientP histMsgs rfl rfl rfl rfl⟩

theorem replay_effects_calls (net : WsNet) (c : Client)
    (fetched : Except DBError (List MessageData)) :
    tokenDeletesOf (Chat.replay_effects net c fetched) = [] ∧
    closesOf (Chat.replay_effects net c fetched) = [] ∧
    messageInsertsOf (Chat.replay_effects net c fetched) = [] ∧
    messageGetsOf (Chat.replay_effects net c fetched) = [] := by
  cases fetched with
  | ok msgs =>
      exact ⟨by simp [Chat.replay_effects, (replay_calls_empty net c msgs).2.2.1],
        by simp [Chat.replay_effects, (replay_calls_empty net c msgs).2.2.2],
        by simp [Chat.replay_effects, (replay_calls_empty net c msgs).2.1],
        by simp [Chat.replay_effects, (replay_calls_empty net c msgs).1]⟩
  | error e =>
      exact ⟨rfl, rfl, rfl, rfl⟩

/-! ### C4 -/

theorem login_invalid_eq_some (net : WsNet) (login : Login) (server : Server)
    (client : Client)
    (hp : mapGet server.init_pool login.connection_id = some client) :
    Chat.login_invalid net login server =
      ({ server with
          init_pool := mapErase server.init_pool login.connection_id },
       Effect.poolRemove login.connection_id ::
         Effect.close client.sender CloseCode.status ::
         (match net.close_result client.sender with
          | Except.ok _ => []
          | Except.error _ => [Effect.logError "closing socket error"])) := by
  unfold Chat.login_invalid
  simp [hp]

theorem login_invalid_eq_none (net : WsNet) (login : Login) (server : Server)
    (hp : mapGet server.init_pool login.connection_id = none) :
    Chat.login_invalid net login server =
      (server,
       [Effect.poolRemove login.connection_id,
        Effect.logError "could not get client from map"]) := by
  unfold Chat.login_invalid
  simp [hp]

/-- C4: an invalid-token login removes the connection from the pending pool
(if present) and closes its socket with the close code the source passes
(`CloseCode::Status`); the connection is never inserted into any room
membership map and no display-name entry is created. -/
theorem login_invalid_closed_not_joined (net : WsNet) (repo : Repository)
    (login : Login) (server : Server)
    (hv : repo.token_get_valid login.token login.room_name =
      Except.ok false) :
    (Chat.handle_login net repo login server).1.connections =
      server.connections ∧
    (Chat.handle_login net repo login server).1.user_names =
      server.user_names ∧
    mapGet (Chat.handle_login net repo login server).1.init_pool
      login.connection_id = none ∧
    (∀ j, j ≠ login.connection_id →
      mapGet (Chat.handle_login net repo login server).1.init_pool j =
        mapGet server.init_pool j) ∧
    closesOf (Chat.handle_login net repo login server).2 =
      ((mapGet server.init_pool login.connection_id).map
        (fun c => (c.sender, CloseCode.status))).toList := by
  have heq : Chat.login_outcome net repo login server =
      Chat.login_invalid net login server := by
    unfold Chat.login_outcome
    rw [hv]
  unfold Chat.handle_login
  rw [heq]
  cases hp : mapGet server.init_pool login.connection_id with
  | some client =>
      rw [login_invalid_eq_some net login server client hp]
      refine ⟨rfl, rfl, mapGet_mapErase_self _ _,
        fun j hj => mapGet_mapErase_ne _ _ _ hj, ?_⟩
      cases hcl : net.close_result client.sender <;>
        cases hd : repo.token_delete login.token login.room_name <;>
          simp [hcl, hd, Chat.token_delete_effects, closesOf]
  | none =>
      rw [login_invalid_eq_none net login server hp]
      refine ⟨rfl, rfl, hp, fun j hj => rfl, ?_⟩
      cases hd : repo.token_delete login.token login.room_name <;>
        simp [hd, Chat.token_delete_effects, closesOf]

/-- Witness for C4: pending connection 9 presents a token the store rejects;
its socket is closed and no membership or name entry appears. -/
theorem login_invalid_closed_not_joined_witness :
    repoReject.token_get_valid "t1" "lobby" = Except.ok false ∧
    ((Chat.handle_login netOk repoReject loginA serverPend).1.connections =
        serverPend.connections ∧
     (Chat.handle_login netOk repoReject loginA serverPend).1.user_names =
        serverPend.user_names ∧
     mapGet (Chat.handle_login netOk repoReject loginA
        serverPend).1.init_pool 9 = none ∧
     (∀ j, j ≠ 9 →
       mapGet (Chat.handle_login netOk repoReject loginA
          serverPend).1.init_pool j = mapGet serverPend.init_pool j) ∧
     closesOf (Chat.handle_login netOk repoReject loginA serverPend).2 =
       ((mapGet serverPend.init_pool 9).map
         (fun c => (c.sender, CloseCode.status))).toList) :=
  ⟨rfl, login_invalid_closed_not_joined netOk repoReject loginA serverPend rfl⟩

/-! ### C5 -/

theorem login_outcome_no_delete (net : WsNet) (repo : Repository)
    (login : Login) (server : Server) :
    tokenDeletesOf (Chat.login_outcome net repo login server).2 = [] := by
  unfold Chat.login_outcome
  cases hg : repo.token_get_valid login.token login.room_name with
  | error e => simp [tokenDeletesOf]
  | ok b =>
      cases b
      · unfold Chat.login_invalid
        cases hp : mapGet server.init_pool login.connection_id with
        | some client =>
            cases hcl : net.close_result client.sender <;>
              simp [hcl, tokenDeletesOf]
        | none => simp [tokenDeletesOf]
      · unfold Chat.login_valid
        cases hp : mapGet server.init_pool login.connection_id with
        | some client0 =>
            simp [tokenDeletesOf, (replay_effects_calls net _ _).1]
        | none => simp [tokenDeletesOf]

theorem login_outcome_delete_independent (net : WsNet) (login : Login)
    (server : Server) (g : String → String → Except DBError Bool)
    (d1 d2 : String → String → Except DBError Unit)
    (mi : MessageData → Except DBError Unit)
    (mg : MsgParams → Except DBError (List MessageData)) :
    Chat.login_outcome net ⟨g, d1, mi, mg⟩ login server =
      Chat.login_outcome net ⟨g, d2, mi, mg⟩ login server := by
  unfold Chat.login_outcome Chat.login_valid Chat.login_invalid
  rfl

/-- C5: every login attempt — success, rejection, or store error alike —
attempts exactly one deletion of the presented (token, room) pair, after the
outcome has been handled (no send or close follows it), and its
own result never changes the resulting registry state, the sends or the
closes. -/
theorem login_token_delete_always (net : WsNet) (login : Login)
    (server : Server) (g : String → String → Except DBError Bool)
    (d1 d2 : String → String → Except DBError Unit)
    (mi : MessageData → Except DBError Unit)
    (mg : MsgParams → Except DBError (List MessageData)) :
    tokenDeletesOf (Chat.handle_login net ⟨g, d1, mi, mg⟩ login server).2 =
      [(login.token, login.room_name)] ∧
    (∃ pre post,
      (Chat.handle_login net ⟨g, d1, mi, mg⟩ login server).2 =
        pre ++ Effect.tokenDelete login.token login.room_name :: post ∧
      tokenDeletesOf pre = [] ∧ tokenDeletesOf post = [] ∧
      sendsOf post = [] ∧ closesOf post = []) ∧
    (Chat.handle_login net ⟨g, d1, mi, mg⟩ login server).1 =
      (Chat.handle_login net ⟨g, d2, mi, mg⟩ login server).1 ∧
    sendsOf (Chat.handle_login net ⟨g, d1, mi, mg⟩ login server).2 =
      sendsOf (Chat.handle_login net ⟨g, d2, mi, mg⟩ login server).2 ∧
    closesOf (Chat.handle_login net ⟨g, d1, mi, mg⟩ login server).2 =
      closesOf (Chat.handle_login net ⟨g, d2, mi, mg⟩ login server).2 := by
  have hout := login_outcome_delete_independent net login server g d1 d2 mi mg
  refine ⟨?_, ?_, ?_, ?_, ?_⟩
  · unfold Chat.handle_login
    cases hd : d1 login.token login.room_name <;>
      simp [Chat.token_delete_effects, hd, tokenDeletesOf,
        login_outcome_no_delete]
  · unfold Chat.handle_login
    cases hd : d1 login.token login.room_name with
    | ok u =>
        refine ⟨Effect.serverLockAcquire ::
          Effect.tokenGetValid login.token login.room_name ::
          (Chat.login_outcome net ⟨g, d1, mi, mg⟩ login server).2,
          [Effect.serverLockRelease], ?_, ?_, ?_, ?_, ?_⟩ <;>
          simp [Chat.token_delete_effects, hd, tokenDeletesOf, sendsOf,
            closesOf, login_outcome_no_delete]
    | error e =>
        refine ⟨Effect.serverLockAcquire ::
          Effect.tokenGetValid login.token login.room_name ::
          (Chat.login_outcome net ⟨g, d1, mi, mg⟩ login server).2,
          [Effect.logWarn "error while deleting token after login",
           Effect.serverLockRelease], ?_, ?_, ?_, ?_, ?_⟩ <;>
          simp [Chat.token_delete_effects, hd, tokenDeletesOf, sendsOf,
            closesOf, login_outcome_no_delete]
  · unfold Chat.handle_login
    rw [hout]
  · unfold Chat.handle_login
    cases hd1 : d1 login.token login.room_name <;>
      cases hd2 : d2 login.token login.room_name <;>
        simp [Chat.token_delete_effects, hd1, hd2, sendsOf, hout]
  · unfold Chat.handle_login
    cases hd1 : d1 login.token login.room_name <;>
      cases hd2 : d2 login.token login.room_name <;>
        simp [Chat.token_delete_effects, hd1, hd2, closesOf, hout]

/-- Witness for C5: a concrete valid login deletes exactly its (token, room)
pair, and a failing deletion leaves the final registry state identical. -/
theorem login_token_delete_always_witness :
    tokenDeletesOf (Chat.handle_login netOk ⟨tokTrue, delOk, insOk,
        getHist⟩ loginA serverPend).2 = [("t1", "lobby")] ∧
    (Chat.handle_login netOk ⟨tokTrue, delOk, insOk, getHist⟩ loginA
        serverPend).1 =
      (Chat.handle_login netOk ⟨tokTrue, delErr, insOk, getHist⟩ loginA
        serverPend).1 := by
  obtain ⟨h1, h2, h3, h4, h5⟩ := login_token_delete_always netOk loginA
    serverPend tokTrue delOk delErr insOk getHist
  exact ⟨h1, h3⟩

/-! ### C9 -/

theorem effectsWhileHeld_closed (mid : List Effect) :
    (∀ e ∈ mid,
      e ≠ Effect.serverLockAcquire ∧ e ≠ Effect.serverLockRelease) →
    effectsWhileHeld (mid ++ [Effect.serverLockRelease]) true = mid := by
  induction mid with
  | nil => intro h; rfl
  | cons e tr ih =>
      intro h
      have he := h e (List.mem_cons_self e tr)
      have ht := fun x hx => h x (List.mem_cons_of_mem e hx)
      cases e <;> first
        | exact absurd rfl he.1
        | exact absurd rfl he.2
        | simp [effectsWhileHeld, ih ht]

theorem effectsWhileHeld_acquire (mid : List Effect)
    (h : ∀ e ∈ mid,
      e ≠ Effect.serverLockAcquire ∧ e ≠ Effect.serverLockRelease) :
    effectsWhileHeld
      (Effect.serverLockAcquire :: mid ++ [Effect.serverLockRelease])
      false = mid := by
  simpa [effectsWhileHeld] using effectsWhileHeld_closed mid h

theorem replayOne_no_locks (net : WsNet) (c : Client) (m : MessageData) :
    ∀ e ∈ replayOne net c m,
      e ≠ Effect.serverLockAcquire ∧ e ≠ Effect.serverLockRelease := by
  intro e he
  cases hn : net.send_result c.sender
      (serializeFrontMsg { msg := m.message, user_name := m.user_name }) with
  | ok u =>
      simp [replayOne, hn] at he
      rcases he with rfl | rfl <;> simp
  | error s =>
      simp [replayOne, hn] at he
      rcases he with rfl | rfl | rfl <;> simp

theorem replayFlatten_no_locks (net : WsNet) (c : Client)
    (msgs : List MessageData) :
    ∀ e ∈ (msgs.map (replayOne net c)).flatten,
      e ≠ Effect.serverLockAcquire ∧ e ≠ Effect.serverLockRelease := by
  intro e he
  rcases List.mem_flatten.mp he with ⟨l, hl, hel⟩
  rcases List.mem_map.mp hl with ⟨m, _, rfl⟩
  exact replayOne_no_locks net c m e hel

theorem token_delete_effects_no_locks (repo : Repository) (login : Login) :
    ∀ e ∈ Chat.token_delete_effects repo login,
      e ≠ Effect.serverLockAcquire ∧ e ≠ Effect.serverLockRelease := by
  intro e he
  cases hd : repo.token_delete login.token login.room_name with
  | ok u =>
      simp [Chat.token_delete_effects, hd] at he
      subst he
      simp
  | error s =>
      simp [Chat.token_delete_effects, hd] at he
      rcases he with rfl | rfl <;> simp

theorem send_mem_replayOne (net : WsNet) (c : Client) (m : MessageData) :
    Effect.send c.sender
        (serializeFrontMsg { msg := m.message, user_name := m.user_name }) ∈
      replayOne net c m := by
  cases hn : net.send_result c.sender
      (serializeFrontMsg { msg := m.message, user_name := m.user_name }) <;>
    simp [replayOne, hn]

/-- C9 counterexample: in the concrete valid login of pending connection 9,
the one history fetch and a history-replay send both occur in the portion of
the trace where the registry lock is held — not with the lock released as
the claim states (the lock guard spans the whole of `handle_login`). -/
theorem login_lock_counterexample :
    Effect.messageGet
        { page := DEFAULT_PAGE_INDEX, room_name := "lobby",
          size := DEFAULT_PAGE_SIZE } ∈
      effectsWhileHeld
        (Chat.handle_login netOk repoHist loginA serverPend).2 false ∧
    Effect.send 9 (serializeFrontMsg { msg := "one", user_name := "bob" }) ∈
      effectsWhileHeld
        (Chat.handle_login netOk repoHist loginA serverPend).2 false := by
  constructor <;> decide

/-- C9 (amended): the registry lock is acquired at the start of login
processing and released only at its very end, so on a successful login the
history fetch and every history-replay send are performed while the
exclusive registry lock is held — not with the lock released. -/
theorem login_replay_under_lock (net : WsNet) (repo : Repository)
    (login : Login) (server : Server) (client0 : Client)
    (msgs : List MessageData)
    (hv : repo.token_get_valid login.token login.room_name = Except.ok true)
    (hp : mapGet server.init_pool login.connection_id = some client0)
    (hm : repo.message_get
        { page := DEFAULT_PAGE_INDEX, room_name := login.room_name,
          size := DEFAULT_PAGE_SIZE } =
      Except.ok msgs) :
    Effect.messageGet
        { page := DEFAULT_PAGE_INDEX, room_name := login.room_name,
          size := DEFAULT_PAGE_SIZE } ∈
      effectsWhileHeld (Chat.handle_login net repo login server).2 false ∧
    ∀ m ∈ msgs,
      Effect.send client0.sender
          (serializeFrontMsg { msg := m.message, user_name := m.user_name }) ∈
        effectsWhileHeld (Chat.handle_login net repo login server).2 false := by
  have heq : Chat.login_outcome net repo login server =
      Chat.login_valid net repo login server := by
    unfold Chat.login_outcome
    rw [hv]
  have hv2 := login_valid_eq net repo login server client0 msgs hp hm
  have htr : (Chat.handle_login net repo login server).2 =
      Effect.serverLockAcquire ::
        (Effect.tokenGetValid login.token login.room_name ::
          Effect.poolRemove login.connection_id ::
          Effect.nameInsert login.connection_id login.name ::
          Effect.messageGet
            { page := DEFAULT_PAGE_INDEX, room_name := login.room_name,
              size := DEFAULT_PAGE_SIZE } ::
          ((msgs.map (replayOne net
              { client0 with room_name := login.room_name })).flatten ++
            (Effect.memberInsert login.room_name client0.connection_id ::
              Chat.token_delete_effects repo login))) ++
        [Effect.serverLockRelease] := by
    unfold Chat.handle_login
    rw [heq, hv2]
    simp
  have hnl : ∀ e ∈ (Effect.tokenGetValid login.token login.room_name ::
      Effect.poolRemove login.connection_id ::
      Effect.nameInsert login.connection_id login.name ::
      Effect.messageGet
        { page := DEFAULT_PAGE_INDEX, room_name := login.room_name,
          size := DEFAULT_PAGE_SIZE } ::
      ((msgs.map (replayOne net
          { client0 with room_name := login.room_name })).flatten ++
        (Effect.memberInsert login.room_name client0.connection_id ::
          Chat.token_delete_effects repo login))),
      e ≠ Effect.serverLockAcquire ∧ e ≠ Effect.serverLockRelease := by
    intro e he
    simp only [List.mem_cons, List.mem_append] at he
    rcases he with rfl | rfl | rfl | rfl | hf | rfl | ht
    · simp
    · simp
    · simp
    · simp
    · exact replayFlatten_no_locks net _ msgs e hf
    · simp
    · exact token_delete_effects_no_locks repo login e ht
  have hheld : effectsWhileHeld
      (Chat.handle_login net repo login server).2 false =
      Effect.tokenGetValid login.token login.room_name ::
      Effect.poolRemove login.connection_id ::
      Effect.nameInsert login.connection_id login.name ::
      Effect.messageGet
        { page := DEFAULT_PAGE_INDEX, room_name := login.room_name,
          size := DEFAULT_PAGE_SIZE } ::
      ((msgs.map (replayOne net
          { client0 with room_name := login.room_name })).flatten ++
        (Effect.memberInsert login.room_name client0.connection_id ::
          Chat.token_delete_effects repo login)) := by
    rw [htr]
    exact effectsWhileHeld_acquire _ hnl
  rw [hheld]
  constructor
  · simp
  · intro m hm2
    have hsend := send_mem_replayOne net
      { client0 with room_name := login.room_name } m
    have hmem : Effect.send client0.sender
        (serializeFrontMsg { msg := m.message, user_name := m.user_name }) ∈
        (msgs.map (replayOne net
          { client0 with room_name := login.room_name })).flatten :=
      List.mem_flatten.mpr
        ⟨replayOne net { client0 with room_name := login.room_name } m,
         List.mem_map_of_mem _ hm2, hsend⟩
    simp only [List.mem_cons, List.mem_append]
    exact Or.inr (Or.inr (Or.inr (Or.inr (Or.inl hmem))))

/-- Witness for the amended C9 statement: the concrete login of connection 9
has its fetch and both replay sends inside the lock-held trace region. -/
theorem login_replay_under_lock_witness :
    repoHist.token_get_valid "t1" "lobby" = Except.ok true ∧
    mapGet serverPend.init_pool 9 = some clientP ∧
    (Effect.messageGet
        { page := DEFAULT_PAGE_INDEX, room_name := "lobby",
          size := DEFAULT_PAGE_SIZE } ∈
      effectsWhileHeld
        (Chat.handle_login netOk repoHist loginA serverPend).2 false ∧
     ∀ m ∈ histMsgs,
       Effect.send clientP.sender
           (serializeFrontMsg { msg := m.message, user_name := m.user_name }) ∈
         effectsWhileHeld
           (Chat.handle_login netOk repoHist loginA serverPend).2 false) :=
  ⟨rfl, rfl, login_replay_under_lock netOk repoHist loginA serverPend clientP
    histMsgs rfl rfl rfl⟩
